import Mathlib

/-!
Shallow embedding of the spot-check-firmware update-orchestration core
(conditions task: tick classifier, dispatch loop, conditions fetch pipeline).
-/

/-- One bit per logical update class, as in the C `#define`s. -/
def UPDATE_CONDITIONS_BIT : Nat := 1 <<< 0

def UPDATE_TIDE_CHART_BIT : Nat := 1 <<< 1

def UPDATE_SWELL_CHART_BIT : Nat := 1 <<< 2

def UPDATE_TIME_BIT : Nat := 1 <<< 3

def UPDATE_SPOT_NAME_BIT : Nat := 1 <<< 4

def CHECK_OTA_BIT : Nat := 1 <<< 5

def NUM_DIFFERENTIAL_UPDATES : Nat := 3

def NUM_DISCRETE_UPDATES : Nat := 4

def SECS_PER_MIN : Int := 60

def MINS_PER_HOUR : Int := 60

def TIME_UPDATE_INTERVAL_SECONDS : Int := 1 * SECS_PER_MIN

def CONDITIONS_UPDATE_INTERVAL_SECONDS : Int := 20 * SECS_PER_MIN

def CHARTS_UPDATE_INTERVAL_SECONDS : Int := MINS_PER_HOUR * SECS_PER_MIN

/-- The `execute` function pointers stored in the timetable entries.  Each of
these functions just calls `xTaskNotify(..., bit, eSetBits)`; the semantics of
an action is the bit mask it raises into the dispatch task. -/
inductive TriggerAction : Type
  | time_update
  | conditions_update
  | ota_check
  | tide_chart_update
  | swell_chart_update
deriving DecidableEq, Repr

/-- Bit mask each action raises via `xTaskNotify` (`conditions_trigger_*`). -/
def TriggerAction.notifyBits : TriggerAction → Nat
  | .time_update => UPDATE_TIME_BIT
  | .conditions_update => UPDATE_CONDITIONS_BIT
  | .ota_check => CHECK_OTA_BIT
  | .tide_chart_update => UPDATE_TIDE_CHART_BIT
  | .swell_chart_update => UPDATE_SWELL_CHART_BIT

/-- `differential_update_t` from the C source (times are `time_t`, i.e. Int). -/
structure differential_update_t : Type where
  name : String
  update_interval_secs : Int
  last_executed_epoch_secs : Int
  force_next_update : Bool
  execute : TriggerAction
deriving DecidableEq, Repr

/-- `discrete_update_t` from the C source (`hour`, `minute` are `uint8_t`). -/
structure discrete_update_t : Type where
  name : String
  hour : Nat
  minute : Nat
  executed_already : Bool
  execute : TriggerAction
  force_next_update : Bool
deriving DecidableEq, Repr

/-- The static `differential_updates` array.  `last_executed_epoch_secs` is not
in the C initializer, so static zero-initialization makes it 0.  The OTA check
interval depends on the out-of-tree `CONFIG_OTA_CHECK_INTERVAL_HOURS`, so it is
a parameter. -/
def differential_updates (otaIntervalSecs : Int) : List differential_update_t :=
  [ { name := "time"
      update_interval_secs := TIME_UPDATE_INTERVAL_SECONDS
      last_executed_epoch_secs := 0
      force_next_update := true
      execute := .time_update },
    { name := "conditions"
      update_interval_secs := CONDITIONS_UPDATE_INTERVAL_SECONDS
      last_executed_epoch_secs := 0
      force_next_update := true
      execute := .conditions_update },
    { name := "ota"
      update_interval_secs := otaIntervalSecs
      last_executed_epoch_secs := 0
      force_next_update := true
      execute := .ota_check } ]

/-- The static `discrete_updates` array. -/
def discrete_updates : List discrete_update_t :=
  [ { name := "tide"
      hour := 3
      minute := 0
      executed_already := false
      execute := .tide_chart_update
      force_next_update := true },
    { name := "swell_morning"
      hour := 12
      minute := 0
      executed_already := false
      execute := .swell_chart_update
      force_next_update := true },
    { name := "swell_midday"
      hour := 21
      minute := 0
      executed_already := false
      execute := .swell_chart_update
      force_next_update := true },
    { name := "swell_evening"
      hour := 17
      minute := 0
      executed_already := false
      execute := .swell_chart_update
      force_next_update := true } ]

/-- `discrete_time_matches`: the current value (an `int`) matches the check
value (a `uint8_t`), or the check value is the `0xFF` wildcard. -/
def discrete_time_matches (current : Int) (check : Nat) : Bool :=
  (current == (check : Int)) || (check == 0xFF)

/-- Body of the differential loop in `conditions_timer_expired_callback` for a
single entry: fire iff the interval has elapsed or the force flag is set; on
fire, invoke the action (returned as `some` bit mask), bring `last_executed`
up to date and clear the force flag. -/
def differential_check_step (now_epoch_secs : Int) (e : differential_update_t) :
    differential_update_t × Option Nat :=
  if (now_epoch_secs - e.last_executed_epoch_secs > e.update_interval_secs) ||
      e.force_next_update then
    ({ e with last_executed_epoch_secs := now_epoch_secs, force_next_update := false },
      some e.execute.notifyBits)
  else
    (e, none)

/-- Body of the discrete loop in `conditions_timer_expired_callback` for a
single entry.  Note the `else if` that rearms `executed_already` is attached to
the whole `(matches || force_next_update)` test, exactly as in the C. -/
def discrete_check_step (tm_hour tm_min : Int) (e : discrete_update_t) :
    discrete_update_t × Option Nat :=
  if (discrete_time_matches tm_hour e.hour && discrete_time_matches tm_min e.minute) ||
      e.force_next_update then
    if !e.executed_already then
      ({ e with force_next_update := false, executed_already := true },
        some e.execute.notifyBits)
    else
      (e, none)
  else
    if e.executed_already then
      ({ e with executed_already := false }, none)
    else
      (e, none)

/-- A C loop `for (i = 0; i < k; i++)` that updates `arr[i] := (f arr[i]).1` in
place and collects the actions fired, leaving entries from index `k` on
untouched. -/
def processFirst {α β : Type} (k : Nat) (f : α → α × Option β) :
    List α → List α × List β
  | [] => ([], [])
  | a :: as =>
    match k with
    | 0 => (a :: as, [])
    | Nat.succ k2 =>
      let r := f a
      let rest := processFirst k2 f as
      (r.1 :: rest.1,
        match r.2 with
        | some b => b :: rest.2
        | none => rest.2)

/-- State owned by the tick classifier: the two timetable arrays. -/
structure TickState : Type where
  diffs : List differential_update_t
  discs : List discrete_update_t
deriving DecidableEq, Repr

/-- Initial tick-classifier state: both static arrays as initialized at boot. -/
def initial_tick_state (otaIntervalSecs : Int) : TickState :=
  { diffs := differential_updates otaIntervalSecs, discs := discrete_updates }

/-- `conditions_timer_expired_callback`: one tick.  Reads local time
(`tm_hour`, `tm_min`, epoch seconds) and walks the first
`NUM_DIFFERENTIAL_UPDATES - 1` differential entries and the first
`NUM_DISCRETE_UPDATES - 1` discrete entries (the C loops stop one short of each
array's length).  Returns the new state and the list of notification bit masks
raised, in execution order. -/
def conditions_timer_expired_callback (tm_hour tm_min : Int) (now_epoch_secs : Int)
    (s : TickState) : TickState × List Nat :=
  let rdiff := processFirst (NUM_DIFFERENTIAL_UPDATES - 1)
    (differential_check_step now_epoch_secs) s.diffs
  let rdisc := processFirst (NUM_DISCRETE_UPDATES - 1)
    (discrete_check_step tm_hour tm_min) s.discs
  ({ diffs := rdiff.1, discs := rdisc.1 }, rdiff.2 ++ rdisc.2)

/-- The `full_clear` computation in `conditions_update_task`, verbatim from the
C (including the duplicated spot-name test). -/
def conditions_update_task_full_clear (update_bits : Nat) : Bool :=
  (update_bits &&& UPDATE_SPOT_NAME_BIT != 0) && (update_bits &&& UPDATE_SPOT_NAME_BIT != 0) &&
    (update_bits &&& UPDATE_CONDITIONS_BIT != 0) && (update_bits &&& UPDATE_TIDE_CHART_BIT != 0) &&
    (update_bits &&& UPDATE_SWELL_CHART_BIT != 0)

/-- The dispatch-loop step `if (update_bits & CHECK_OTA_BIT) ota_task_start()`:
whether a dispatch pass over `update_bits` starts the OTA task. -/
def pass_starts_ota (update_bits : Nat) : Bool :=
  update_bits &&& CHECK_OTA_BIT != 0

/-- `xTaskNotify(..., eSetBits)` ORs each raised mask into the pending
notification value, which the dispatch loop reads and clears in one go. -/
def accumulate_notifications (raised : List Nat) : Nat :=
  raised.foldl (fun acc b => acc ||| b) 0

/-- A parsed JSON value as far as `conditions_refresh` inspects one: a number
(`cJSON_IsNumber`, with `valueint` as the payload), a string
(`cJSON_IsString`), or anything else (null, bool, object, array...). -/
inductive JsonVal : Type
  | num (valueint : Int)
  | str (valuestring : String)
  | other
deriving DecidableEq, Repr

/-- The fields under the response's top-level `data` object that
`conditions_refresh` looks up; `none` means `cJSON_GetObjectItem` returned
`NULL` (key absent). -/
structure DataObj : Type where
  temp : Option JsonVal
  wind_speed : Option JsonVal
  wind_dir : Option JsonVal
  tide_height : Option JsonVal
deriving DecidableEq, Repr

/-- Outcome of the transport steps of `conditions_refresh`:
`http_client_perform_request` failing, `http_client_read_response_to_buffer`
failing, a zero-byte body, or a body whose parse yields an optional `data`
object (`none` when `parse_json` fails or the `data` key is absent, in which
case every nested `cJSON_GetObjectItem` returns `NULL`). -/
inductive Transport : Type
  | performFail
  | readFail
  | readEmpty
  | ok (data : Option DataObj)
deriving DecidableEq, Repr

/-- `conditions_t`: the shared `last_retrieved_conditions` snapshot
(`temperature` is an `int8_t`, `wind_speed` a `uint8_t`, the rest strings). -/
structure conditions_t : Type where
  temperature : Int
  wind_speed : Int
  wind_dir : String
  tide_height : String
deriving DecidableEq, Repr

/-- C conversion of an `int` to `int8_t` (two's-complement wrap-around, as on
the target). -/
def int8_of_int (n : Int) : Int :=
  if n % 256 < 128 then n % 256 else n % 256 - 256

/-- C conversion of an `int` to `uint8_t` (reduction mod 256). -/
def uint8_of_int (n : Int) : Int :=
  n % 256

/-- Lookup of a field under the optional `data` object:
`cJSON_GetObjectItem(NULL, key)` is `NULL`. -/
def getDataItem (data : Option DataObj) (field : DataObj → Option JsonVal) :
    Option JsonVal :=
  match data with
  | none => none
  | some d => field d

/-- `conditions_refresh`, as a function of the transport outcome and the
current snapshot, returning the C function's `bool` result together with the
snapshot after the call (the C mutates the global `last_retrieved_conditions`
in place). -/
def conditions_refresh (t : Transport) (snapshot : conditions_t) :
    Bool × conditions_t :=
  match t with
  | .performFail => (false, snapshot)
  | .readFail => (false, snapshot)
  | .readEmpty => (false, snapshot)
  | .ok data_value =>
    let temperature_object := getDataItem data_value DataObj.temp
    let wind_speed_object := getDataItem data_value DataObj.wind_speed
    let wind_dir_object := getDataItem data_value DataObj.wind_dir
    let tide_height_object := getDataItem data_value DataObj.tide_height
    if wind_dir_object.isNone || tide_height_object.isNone || wind_speed_object.isNone ||
        temperature_object.isNone then
      (false, snapshot)
    else
      let temperature : Int :=
        match temperature_object with
        | some (.num n) => int8_of_int n
        | _ => -99
      let wind_speed : Int :=
        match wind_speed_object with
        | some (.num n) => uint8_of_int n
        | _ => 99
      let wind_dir_str : String :=
        match wind_dir_object with
        | some (.str s) => s
        | _ => "X"
      let tide_height_str : String :=
        match tide_height_object with
        | some (.str s) => s
        | _ => "?"
      (true,
        { temperature := temperature
          wind_speed := wind_speed
          wind_dir := wind_dir_str
          tide_height := tide_height_str })

/-- Whether an optional field holds a JSON number (`cJSON_IsNumber`). -/
def is_number_field : Option JsonVal → Bool
  | some (.num _) => true
  | _ => false

/-- Whether an optional field holds a JSON string (`cJSON_IsString`). -/
def is_string_field : Option JsonVal → Bool
  | some (.str _) => true
  | _ => false

/-- Local hour of a simulated per-second clock: second `t` since local
midnight of day 0 has `tm_hour = t / 3600 % 24`. -/
def hour_of_sec (t : Nat) : Nat :=
  t / 3600 % 24

/-- Local minute of a simulated per-second clock: `tm_min = t % 3600 / 60`. -/
def min_of_sec (t : Nat) : Nat :=
  t % 3600 / 60

/-- Simulation harness for one discrete entry: run `n` one-second ticks
starting at second `t`, feeding the entry through `discrete_check_step` with
the simulated wall-clock hour/minute, and record the seconds at which the
entry fired. -/
def discrete_sim (t : Nat) (n : Nat) (e : discrete_update_t) :
    List Nat × discrete_update_t :=
  match n with
  | 0 => ([], e)
  | Nat.succ k =>
    let r := discrete_check_step ((hour_of_sec t : Nat) : Int) ((min_of_sec t : Nat) : Int) e
    let rest := discrete_sim (t + 1) k r.1
    (match r.2 with
      | some _ => t :: rest.1
      | none => rest.1,
      rest.2)

/-- Transport-level failure of `conditions_refresh`: `perform_request`
reported failure, reading the response failed, or it yielded zero bytes. -/
def transport_failed : Transport → Bool
  | .performFail => true
  | .readFail => true
  | .readEmpty => true
  | .ok _ => false

/-- The entries a tick examines (all but the last of each array) none of which
hold the `ota` action.  This holds at boot and is preserved by every tick. -/
def examined_no_ota (s : TickState) : Prop :=
  (∀ e ∈ s.diffs.take (NUM_DIFFERENTIAL_UPDATES - 1), e.execute ≠ TriggerAction.ota_check) ∧
    (∀ e ∈ s.discs.take (NUM_DISCRETE_UPDATES - 1), e.execute ≠ TriggerAction.ota_check)

lemma and_shiftLeft_ne_zero (b k : Nat) : (b &&& (1 <<< k) != 0) = b.testBit k := by
  have h1 : (1 : Nat) <<< k = 2 ^ k := by
    simp [Nat.shiftLeft_eq]
  rw [h1, Nat.and_two_pow]
  cases hb : b.testBit k <;> simp [hb]

lemma int8_of_int_eq_self (n : Int) (h1 : -128 ≤ n) (h2 : n < 128) : int8_of_int n = n := by
  unfold int8_of_int
  split <;> omega

lemma uint8_of_int_eq_self (n : Int) (h1 : 0 ≤ n) (h2 : n < 256) : uint8_of_int n = n := by
  unfold uint8_of_int
  omega

/-- C1: a differential entry examined by a tick fires iff its force flag is
set or strictly more than its interval has elapsed since its last run; on
fire the tick raises the entry's action bits, sets `last_executed` to the
current epoch time and clears the force flag (otherwise the entry is left
untouched), so the updated entry cannot fire again within its interval. -/
theorem C1_differential_fire_iff :
    ∀ (now_epoch_secs : Int) (e : differential_update_t),
      ((differential_check_step now_epoch_secs e).2.isSome =
        (e.force_next_update ||
          decide (now_epoch_secs - e.last_executed_epoch_secs > e.update_interval_secs))) ∧
      ((differential_check_step now_epoch_secs e).2.isSome = true →
        differential_check_step now_epoch_secs e =
          ({ e with last_executed_epoch_secs := now_epoch_secs, force_next_update := false },
            some e.execute.notifyBits)) ∧
      ((differential_check_step now_epoch_secs e).2.isSome = false →
        differential_check_step now_epoch_secs e = (e, none)) ∧
      ((differential_check_step now_epoch_secs e).2.isSome = true →
        ∀ t2 : Int, t2 - now_epoch_secs ≤ e.update_interval_secs →
          (differential_check_step t2 (differential_check_step now_epoch_secs e).1).2 = none) := by
  intro now e
  by_cases hc : (decide (now - e.last_executed_epoch_secs > e.update_interval_secs) ||
      e.force_next_update) = true
  · have hstep : differential_check_step now e =
        ({ e with last_executed_epoch_secs := now, force_next_update := false },
          some e.execute.notifyBits) := by
      unfold differential_check_step
      rw [if_pos hc]
    refine ⟨?_, fun _ => hstep, ?_, ?_⟩
    · rw [hstep]
      simp only [Option.isSome_some]
      cases hf : e.force_next_update
      · rw [hf, Bool.or_false] at hc
        simp only [Bool.false_or]
        exact hc.symm
      · simp
    · intro habs
      rw [hstep] at habs
      simp at habs
    · intro _ t2 ht2
      rw [hstep]
      unfold differential_check_step
      rw [if_neg]
      simp only [Bool.or_eq_true, decide_eq_true_eq]
      push_neg
      exact ⟨by omega, by simp⟩
  · have hstep : differential_check_step now e = (e, none) := by
      unfold differential_check_step
      rw [if_neg hc]
    simp only [Bool.or_eq_true, not_or, Bool.not_eq_true] at hc
    refine ⟨?_, ?_, fun _ => hstep, ?_⟩
    · rw [hstep]
      simp [hc.1, hc.2]
    · intro habs
      rw [hstep] at habs
      simp at habs
    · intro habs
      rw [hstep] at habs
      simp at habs

theorem C1_witness :
    differential_check_step 5 ⟨"time", 60, 0, true, .time_update⟩ =
      (⟨"time", 60, 5, false, .time_update⟩, some UPDATE_TIME_BIT) ∧
    (differential_check_step 30 ⟨"time", 60, 5, false, .time_update⟩).2 = none := by
  constructor
  · exact (C1_differential_fire_iff 5 ⟨"time", 60, 0, true, .time_update⟩).2.1 (by decide)
  · exact (C1_differential_fire_iff 5 ⟨"time", 60, 0, true, .time_update⟩).2.2.2 (by decide) 30
      (by decide)

/-- C3: in a dispatch pass, `full_clear` is true iff the woken bit set
contains all four of the spot-name, conditions, tide-chart and swell-chart
bits simultaneously (so it is false for any strict subset). -/
theorem C3_full_clear_iff_all_four :
    ∀ update_bits : Nat,
      conditions_update_task_full_clear update_bits =
        (update_bits.testBit 4 && update_bits.testBit 0 && update_bits.testBit 1 &&
          update_bits.testBit 2) := by
  intro b
  unfold conditions_update_task_full_clear UPDATE_SPOT_NAME_BIT UPDATE_CONDITIONS_BIT
    UPDATE_TIDE_CHART_BIT UPDATE_SWELL_CHART_BIT
  rw [and_shiftLeft_ne_zero, and_shiftLeft_ne_zero, and_shiftLeft_ne_zero,
    and_shiftLeft_ne_zero]
  cases b.testBit 4 <;> cases b.testBit 0 <;> cases b.testBit 1 <;> cases b.testBit 2 <;> rfl

/-- C4: on a transport-successful response whose `data` object is entirely
absent, or which lacks any of the four expected fields, `conditions_refresh`
returns failure and leaves the snapshot unchanged. -/
theorem C4_absent_field_fails :
    ∀ (data : Option DataObj) (c : conditions_t),
      (data = none ∨
        ∃ d, data = some d ∧
          (d.temp = none ∨ d.wind_speed = none ∨ d.wind_dir = none ∨ d.tide_height = none)) →
      conditions_refresh (Transport.ok data) c = (false, c) := by
  intro data c h
  rcases h with rfl | ⟨d, rfl, h⟩
  · rfl
  · simp only [conditions_refresh, getDataItem]
    rcases h with h | h | h | h <;> simp [h]

theorem C4_witness :
    conditions_refresh (Transport.ok none) ⟨70, 10, "SW", "2.5"⟩ =
      (false, ⟨70, 10, "SW", "2.5"⟩) :=
  C4_absent_field_fails none ⟨70, 10, "SW", "2.5"⟩ (Or.inl rfl)

/-- C5 as stated is false: a response whose `data.temp` field is entirely
absent never yields overall success, however well-typed the other three
fields are — the absent-field guard returns failure first. -/
theorem C5_counterexample :
    ¬ ∃ (d : DataObj) (c : conditions_t),
        d.temp = none ∧ is_number_field d.wind_speed = true ∧
          is_string_field d.wind_dir = true ∧ is_string_field d.tide_height = true ∧
          (conditions_refresh (Transport.ok (some d)) c).1 = true := by
  rintro ⟨d, c, ht, _, _, _, hs⟩
  simp [conditions_refresh, getDataItem, ht] at hs

/-- C5 amended: for some transport-successful response in which `data.temp`
is present but not a number while the other three fields are present and
well-typed, `conditions_refresh` returns overall success with temperature
equal to the -99 sentinel and the other three fields set to their parsed
values. -/
theorem C5_amended_wrong_type_temp_defaults :
    ∃ (d : DataObj) (c : conditions_t),
      d.temp.isSome = true ∧ is_number_field d.temp = false ∧
        is_number_field d.wind_speed = true ∧ is_string_field d.wind_dir = true ∧
        is_string_field d.tide_height = true ∧
        conditions_refresh (Transport.ok (some d)) c =
          (true, { temperature := -99, wind_speed := 5, wind_dir := "W", tide_height := "3.1" }) := by
  refine ⟨⟨some .other, some (.num 5), some (.str "W"), some (.str "3.1")⟩,
    ⟨70, 10, "SW", "2.5"⟩, rfl, rfl, rfl, rfl, rfl, rfl⟩

/-- C6: whenever the transport step fails (`perform_request` failure, read
failure, or a zero-byte response), `conditions_refresh` returns failure and
the snapshot is completely unchanged. -/
theorem C6_transport_failure_leaves_snapshot :
    ∀ (t : Transport) (c : conditions_t),
      transport_failed t = true → conditions_refresh t c = (false, c) := by
  intro t c h
  cases t with
  | performFail => rfl
  | readFail => rfl
  | readEmpty => rfl
  | ok d => simp [transport_failed] at h

theorem C6_witness :
    conditions_refresh Transport.performFail ⟨70, 10, "SW", "2.5"⟩ =
      (false, ⟨70, 10, "SW", "2.5"⟩) :=
  C6_transport_failure_leaves_snapshot Transport.performFail ⟨70, 10, "SW", "2.5"⟩ rfl

/-- C7 as stated is false: numeric values are narrowed to the snapshot's
8-bit fields, so a well-typed `temp` of 300 is stored as 44, not taken
verbatim, while the fetch still reports success. -/
theorem C7_counterexample :
    conditions_refresh
        (Transport.ok (some ⟨some (.num 300), some (.num 5), some (.str "W"), some (.str "3.1")⟩))
        ⟨70, 10, "SW", "2.5"⟩ =
      (true, ⟨44, 5, "W", "3.1"⟩) ∧ (44 : Int) ≠ 300 :=
  ⟨rfl, by decide⟩

/-- C7 amended: on a transport-successful response with all four fields
present, the fetch returns success and writes the snapshot as exactly the
four resolved values: each field is taken verbatim when well-typed and within
the snapshot's 8-bit storage (numeric fields are narrowed with `int8_t` /
`uint8_t` conversion semantics), and a wrong-typed field is replaced by its
sentinel (temperature -99, wind speed 99, wind direction "X", tide height
"?"). -/
theorem C7_amended_resolved_fields :
    ∀ (ft fs fd fh : JsonVal) (c : conditions_t),
      conditions_refresh (Transport.ok (some ⟨some ft, some fs, some fd, some fh⟩)) c =
        (true,
          { temperature :=
              match ft with
              | .num n => int8_of_int n
              | _ => -99
            wind_speed :=
              match fs with
              | .num n => uint8_of_int n
              | _ => 99
            wind_dir :=
              match fd with
              | .str s => s
              | _ => "X"
            tide_height :=
              match fh with
              | .str s => s
              | _ => "?" }) ∧
      (∀ n : Int, -128 ≤ n → n < 128 → int8_of_int n = n) ∧
      (∀ n : Int, 0 ≤ n → n < 256 → uint8_of_int n = n) := by
  intro ft fs fd fh c
  refine ⟨?_, int8_of_int_eq_self, uint8_of_int_eq_self⟩
  cases ft <;> cases fs <;> cases fd <;> cases fh <;> rfl

theorem C7_witness :
    conditions_refresh
        (Transport.ok (some ⟨some (.num 68), some .other, some (.str "NW"), some (.num 3)⟩))
        ⟨70, 10, "SW", "2.5"⟩ =
      (true, ⟨68, 99, "NW", "?"⟩) := by
  have h := (C7_amended_resolved_fields (.num 68) .other (.str "NW") (.num 3)
    ⟨70, 10, "SW", "2.5"⟩).1
  simpa using h

/-- C2: every reachable discrete entry satisfies the invariant that its force
flag and its already-ran flag are never simultaneously set (it holds at boot
and is preserved by the per-entry tick step); under that invariant, a tick
fires an entry exactly when `(matches OR force_next) AND NOT
already_ran_today` — invoking the action, clearing `force_next` and setting
`already_ran_today` — and clears `already_ran_today` exactly when `NOT
matches AND already_ran_today`. -/
theorem C2_discrete_step_spec :
    (∀ e ∈ discrete_updates, ¬(e.force_next_update = true ∧ e.executed_already = true)) ∧
    (∀ (h m : Int) (e : discrete_update_t),
      ¬(e.force_next_update = true ∧ e.executed_already = true) →
      ¬((discrete_check_step h m e).1.force_next_update = true ∧
        (discrete_check_step h m e).1.executed_already = true)) ∧
    (∀ (h m : Int) (e : discrete_update_t),
      ¬(e.force_next_update = true ∧ e.executed_already = true) →
      (((discrete_time_matches h e.hour && discrete_time_matches m e.minute) ||
          e.force_next_update) = true → e.executed_already = false →
        discrete_check_step h m e =
          ({ e with force_next_update := false, executed_already := true },
            some e.execute.notifyBits)) ∧
      ((discrete_time_matches h e.hour && discrete_time_matches m e.minute) = false →
        e.executed_already = true →
        discrete_check_step h m e = ({ e with executed_already := false }, none)) ∧
      (((discrete_time_matches h e.hour && discrete_time_matches m e.minute) ||
          e.force_next_update) = false → e.executed_already = false →
        discrete_check_step h m e = (e, none)) ∧
      (((discrete_time_matches h e.hour && discrete_time_matches m e.minute)) = true →
        e.executed_already = true →
        discrete_check_step h m e = (e, none))) := by
  refine ⟨by decide, ?_, ?_⟩
  · intro h m e hinv
    rcases e with ⟨nm, eh, em, ran, ex, fr⟩
    rcases hm : (discrete_time_matches h eh && discrete_time_matches m em) with _ | _ <;>
      cases ran <;> cases fr <;> simp_all [discrete_check_step] <;> split <;> simp_all
  · intro h m e hinv
    rcases e with ⟨nm, eh, em, ran, ex, fr⟩
    refine ⟨?_, ?_, ?_, ?_⟩ <;>
      · intro hm hr
        rcases hmm : (discrete_time_matches h eh && discrete_time_matches m em) with _ | _ <;>
          cases fr <;> simp_all [discrete_check_step]

theorem C2_witness :
    discrete_check_step 3 0 ⟨"tide", 3, 0, false, .tide_chart_update, false⟩ =
      (⟨"tide", 3, 0, true, .tide_chart_update, false⟩, some UPDATE_TIDE_CHART_BIT) ∧
    discrete_check_step 3 1 ⟨"tide", 3, 0, true, .tide_chart_update, false⟩ =
      (⟨"tide", 3, 0, false, .tide_chart_update, false⟩, none) := by
  constructor
  · exact ((C2_discrete_step_spec.2.2 3 0 ⟨"tide", 3, 0, false, .tide_chart_update, false⟩
      (by decide)).1 (by decide) (by decide))
  · exact ((C2_discrete_step_spec.2.2 3 1 ⟨"tide", 3, 0, true, .tide_chart_update, false⟩
      (by decide)).2.1 (by decide) (by decide))

/-- C8 as stated is false: the "ota" differential entry (index 2) is created
with `force_next_update = true`, yet the first tick after boot leaves it
completely untouched — it does not fire and its force flag stays set —
because the differential loop stops at `NUM_DIFFERENTIAL_UPDATES - 1`. -/
theorem C8_counterexample :
    ((initial_tick_state 3600).diffs)[2]? =
      some { name := "ota", update_interval_secs := 3600, last_executed_epoch_secs := 0,
             force_next_update := true, execute := .ota_check } ∧
    ((conditions_timer_expired_callback 0 0 0 (initial_tick_state 3600)).1.diffs)[2]? =
      some { name := "ota", update_interval_secs := 3600, last_executed_epoch_secs := 0,
             force_next_update := true, execute := .ota_check } ∧
    CHECK_OTA_BIT ∉ (conditions_timer_expired_callback 0 0 0 (initial_tick_state 3600)).2 := by
  refine ⟨rfl, rfl, ?_⟩
  decide

/-- C8 amended: for every timetable entry the tick actually examines (all but
the last entry of each table), `force_next == true` makes the entry fire on
the very next tick regardless of its interval or hour/minute schedule (a
discrete entry additionally must not have `already_ran_today` set, which
holds at boot); since entries are created at startup with `force_next =
true`, every examined entry — both remaining differential entries and the
first three discrete entries — fires on the first tick after boot, whatever
the current time is. -/
theorem C8_forced_examined_entries_fire :
    (∀ (t : Int) (e : differential_update_t), e.force_next_update = true →
      (differential_check_step t e).2 = some e.execute.notifyBits) ∧
    (∀ (h m : Int) (e : discrete_update_t), e.force_next_update = true →
      e.executed_already = false →
      (discrete_check_step h m e).2 = some e.execute.notifyBits) ∧
    (∀ (ota : Int) (h m t : Int),
      (conditions_timer_expired_callback h m t (initial_tick_state ota)).2 =
        [UPDATE_TIME_BIT, UPDATE_CONDITIONS_BIT, UPDATE_TIDE_CHART_BIT,
          UPDATE_SWELL_CHART_BIT, UPDATE_SWELL_CHART_BIT]) := by
  refine ⟨?_, ?_, ?_⟩
  · intro t e hf
    unfold differential_check_step
    rw [if_pos (by simp [hf])]
  · intro h m e hf hr
    unfold discrete_check_step
    rw [if_pos (by simp [hf]), if_pos (by simp [hr])]
  · intro ota h m t
    simp [conditions_timer_expired_callback, initial_tick_state, differential_updates,
      discrete_updates, NUM_DIFFERENTIAL_UPDATES, NUM_DISCRETE_UPDATES, processFirst,
      differential_check_step, discrete_check_step, TriggerAction.notifyBits]

theorem C8_witness :
    (differential_check_step 0
      ⟨"conditions", 1200, 0, true, .conditions_update⟩).2 = some UPDATE_CONDITIONS_BIT ∧
    (discrete_check_step 9 30 ⟨"swell_morning", 12, 0, false, .swell_chart_update, true⟩).2 =
      some UPDATE_SWELL_CHART_BIT := by
  constructor
  · exact C8_forced_examined_entries_fire.1 0
      ⟨"conditions", 1200, 0, true, .conditions_update⟩ rfl
  · exact C8_forced_examined_entries_fire.2.1 9 30
      ⟨"swell_morning", 12, 0, false, .swell_chart_update, true⟩ rfl rfl

lemma processFirst_fst_mem_take {α β : Type} (k : Nat) (f : α → α × Option β) :
    ∀ (l : List α) (x : α), x ∈ (processFirst k f l).1.take k →
      ∃ a ∈ l.take k, x = (f a).1 := by
  induction k with
  | zero => intro l x hx; simp [List.take] at hx
  | succ k2 ih =>
    intro l x hx
    cases l with
    | nil => simp [processFirst] at hx
    | cons a as =>
      simp only [processFirst, List.take, List.mem_cons] at hx
      rcases hx with rfl | hx
      · exact ⟨a, by simp, rfl⟩
      · obtain ⟨a2, ha2, rfl⟩ := ih as x hx
        exact ⟨a2, by simp [ha2], rfl⟩

lemma processFirst_snd_mem {α β : Type} (k : Nat) (f : α → α × Option β) :
    ∀ (l : List α) (b : β), b ∈ (processFirst k f l).2 →
      ∃ a ∈ l.take k, (f a).2 = some b := by
  induction k with
  | zero =>
    intro l b hb
    cases l <;> simp [processFirst] at hb
  | succ k2 ih =>
    intro l b hb
    cases l with
    | nil => simp [processFirst] at hb
    | cons a as =>
      simp only [processFirst] at hb
      rcases hfa : (f a).2 with _ | b2
      · rw [hfa] at hb
        simp only at hb
        obtain ⟨a2, ha2, h2⟩ := ih as b hb
        exact ⟨a2, by simp [ha2], h2⟩
      · rw [hfa] at hb
        simp only [List.mem_cons] at hb
        rcases hb with rfl | hb
        · exact ⟨a, by simp, hfa⟩
        · obtain ⟨a2, ha2, h2⟩ := ih as b hb
          exact ⟨a2, by simp [ha2], h2⟩

lemma differential_check_step_execute (t : Int) (e : differential_update_t) :
    (differential_check_step t e).1.execute = e.execute := by
  unfold differential_check_step
  split <;> rfl

lemma discrete_check_step_execute (h m : Int) (e : discrete_update_t) :
    (discrete_check_step h m e).1.execute = e.execute := by
  unfold discrete_check_step
  split
  · split <;> rfl
  · split <;> rfl

lemma differential_check_step_fired (t : Int) (e : differential_update_t) (b : Nat)
    (hb : (differential_check_step t e).2 = some b) : b = e.execute.notifyBits := by
  unfold differential_check_step at hb
  split at hb
  · exact (Option.some_inj.mp hb).symm
  · exact absurd hb (by simp)

lemma discrete_check_step_fired (h m : Int) (e : discrete_update_t) (b : Nat)
    (hb : (discrete_check_step h m e).2 = some b) : b = e.execute.notifyBits := by
  unfold discrete_check_step at hb
  split at hb
  · split at hb
    · exact (Option.some_inj.mp hb).symm
    · exact absurd hb (by simp)
  · split at hb <;> exact absurd hb (by simp)

lemma notifyBits_testBit_five (a : TriggerAction) (ha : a ≠ TriggerAction.ota_check) :
    a.notifyBits.testBit 5 = false := by
  cases a
  · decide
  · decide
  · exact absurd rfl ha
  · decide
  · decide

lemma accumulate_notifications_testBit_five :
    ∀ (l : List Nat), (∀ b ∈ l, b.testBit 5 = false) →
      (accumulate_notifications l).testBit 5 = false := by
  have haux : ∀ (l : List Nat) (acc : Nat), acc.testBit 5 = false →
      (∀ b ∈ l, b.testBit 5 = false) →
      (l.foldl (fun acc2 b => acc2 ||| b) acc).testBit 5 = false := by
    intro l
    induction l with
    | nil => intro acc hacc _; simpa using hacc
    | cons b bs ih =>
      intro acc hacc hl
      simp only [List.foldl_cons]
      refine ih (acc ||| b) ?_ fun x hx => hl x (by simp [hx])
      rw [Nat.testBit_lor, hacc, hl b (by simp)]
      rfl
  intro l hl
  exact haux l 0 (by decide) hl

/-- C10: the firmware-check bit is never raised by the tick classifier.  The
differential loop examines only the first `NUM_DIFFERENTIAL_UPDATES - 1`
entries, so the "ota" entry — the only one whose action raises
`CHECK_OTA_BIT` — is never executed: from boot onward no examined entry holds
the ota action (the property is preserved by every tick), every notification
a tick raises has the `CHECK_OTA_BIT` clear, and the dispatch loop's
`ota_task_start` guard is therefore never taken. -/
theorem C10_ota_bit_never_raised :
    (∀ ota : Int, examined_no_ota (initial_tick_state ota)) ∧
    (∀ (h m t : Int) (s : TickState), examined_no_ota s →
      examined_no_ota (conditions_timer_expired_callback h m t s).1) ∧
    (∀ (h m t : Int) (s : TickState), examined_no_ota s →
      (∀ b ∈ (conditions_timer_expired_callback h m t s).2,
        b &&& CHECK_OTA_BIT = 0) ∧
      pass_starts_ota
        (accumulate_notifications (conditions_timer_expired_callback h m t s).2) = false) := by
  have hmem : ∀ (h m t : Int) (s : TickState), examined_no_ota s →
      ∀ b ∈ (conditions_timer_expired_callback h m t s).2, b.testBit 5 = false := by
    intro h m t s hs b hb
    simp only [conditions_timer_expired_callback, List.mem_append] at hb
    rcases hb with hb | hb
    · obtain ⟨a, ha, hfa⟩ := processFirst_snd_mem _ _ _ _ hb
      rw [differential_check_step_fired t a b hfa]
      exact notifyBits_testBit_five _ (hs.1 a ha)
    · obtain ⟨a, ha, hfa⟩ := processFirst_snd_mem _ _ _ _ hb
      rw [discrete_check_step_fired h m a b hfa]
      exact notifyBits_testBit_five _ (hs.2 a ha)
  refine ⟨?_, ?_, ?_⟩
  · intro ota
    constructor
    · have h1 : (initial_tick_state ota).diffs.take (NUM_DIFFERENTIAL_UPDATES - 1) =
          [{ name := "time", update_interval_secs := TIME_UPDATE_INTERVAL_SECONDS,
             last_executed_epoch_secs := 0, force_next_update := true, execute := .time_update },
           { name := "conditions", update_interval_secs := CONDITIONS_UPDATE_INTERVAL_SECONDS,
             last_executed_epoch_secs := 0, force_next_update := true,
             execute := .conditions_update }] := rfl
      rw [h1]
      decide
    · have h2 : (initial_tick_state ota).discs.take (NUM_DISCRETE_UPDATES - 1) =
          discrete_updates.take 3 := rfl
      rw [h2]
      decide
  · intro h m t s hs
    constructor
    · intro e he
      simp only [conditions_timer_expired_callback] at he
      obtain ⟨a, ha, rfl⟩ := processFirst_fst_mem_take _ _ _ _ he
      rw [differential_check_step_execute]
      exact hs.1 a ha
    · intro e he
      simp only [conditions_timer_expired_callback] at he
      obtain ⟨a, ha, rfl⟩ := processFirst_fst_mem_take _ _ _ _ he
      rw [discrete_check_step_execute]
      exact hs.2 a ha
  · intro h m t s hs
    constructor
    · intro b hb
      have h5 := hmem h m t s hs b hb
      have h6 : (b &&& CHECK_OTA_BIT != 0) = false := (and_shiftLeft_ne_zero b 5).trans h5
      simpa using h6
    · exact (and_shiftLeft_ne_zero _ 5).trans
        (accumulate_notifications_testBit_five _ (hmem h m t s hs))

theorem C10_witness :
    pass_starts_ota
      (accumulate_notifications
        (conditions_timer_expired_callback 0 0 0 (initial_tick_state 3600)).2) = false :=
  (C10_ota_bit_never_raised.2.2 0 0 0 (initial_tick_state 3600) ⟨by decide, by decide⟩).2

lemma disc_match_iff (h m : Nat) (hh : h < 24) (hm : m < 60) (t : Nat) :
    (discrete_time_matches ((hour_of_sec t : Nat) : Int) h &&
      discrete_time_matches ((min_of_sec t : Nat) : Int) m) = true ↔
      (3600 * h + 60 * m ≤ t % 86400 ∧ t % 86400 < 3600 * h + 60 * m + 60) := by
  unfold discrete_time_matches hour_of_sec min_of_sec
  simp only [Bool.and_eq_true, Bool.or_eq_true, beq_iff_eq, Nat.cast_inj]
  omega

lemma discrete_sim_quiet_unarmed :
    ∀ (n t : Nat) (e : discrete_update_t),
      (∀ k, k < n →
        (discrete_time_matches ((hour_of_sec (t + k) : Nat) : Int) e.hour &&
          discrete_time_matches ((min_of_sec (t + k) : Nat) : Int) e.minute) = false) →
      e.force_next_update = false → e.executed_already = false →
      discrete_sim t n e = ([], e) := by
  intro n
  induction n with
  | zero => intro t e _ _ _; rfl
  | succ k ih =>
    intro t e hq hf hr
    have h0 := hq 0 (Nat.succ_pos k)
    rw [Nat.add_zero] at h0
    have hstep : discrete_check_step ((hour_of_sec t : Nat) : Int)
        ((min_of_sec t : Nat) : Int) e = (e, none) := by
      unfold discrete_check_step
      rw [if_neg (by simp [h0, hf]), if_neg (by simp [hr])]
    have hrest := ih (t + 1) e
      (fun k2 hk2 => by
        have hx := hq (k2 + 1) (by omega)
        rwa [show t + (k2 + 1) = t + 1 + k2 by omega] at hx)
      hf hr
    simp only [discrete_sim, hstep, hrest]

lemma discrete_sim_match_armed :
    ∀ (n t : Nat) (e : discrete_update_t),
      (∀ k, k < n →
        (discrete_time_matches ((hour_of_sec (t + k) : Nat) : Int) e.hour &&
          discrete_time_matches ((min_of_sec (t + k) : Nat) : Int) e.minute) = true) →
      e.executed_already = true →
      discrete_sim t n e = ([], e) := by
  intro n
  induction n with
  | zero => intro t e _ _; rfl
  | succ k ih =>
    intro t e hq hr
    have h0 := hq 0 (Nat.succ_pos k)
    rw [Nat.add_zero] at h0
    have hstep : discrete_check_step ((hour_of_sec t : Nat) : Int)
        ((min_of_sec t : Nat) : Int) e = (e, none) := by
      unfold discrete_check_step
      rw [if_pos (by simp [h0]), if_neg (by simp [hr])]
    have hrest := ih (t + 1) e
      (fun k2 hk2 => by
        have hx := hq (k2 + 1) (by omega)
        rwa [show t + (k2 + 1) = t + 1 + k2 by omega] at hx)
      hr
    simp only [discrete_sim, hstep, hrest]

lemma discrete_sim_quiet_from_armed :
    ∀ (n t : Nat) (e : discrete_update_t),
      (∀ k, k < n →
        (discrete_time_matches ((hour_of_sec (t + k) : Nat) : Int) e.hour &&
          discrete_time_matches ((min_of_sec (t + k) : Nat) : Int) e.minute) = false) →
      e.force_next_update = false → e.executed_already = true → 0 < n →
      discrete_sim t n e = ([], { e with executed_already := false }) := by
  intro n
  cases n with
  | zero => intro t e _ _ _ hpos; exact absurd hpos (by omega)
  | succ k =>
    intro t e hq hf hr _
    have h0 := hq 0 (Nat.succ_pos k)
    rw [Nat.add_zero] at h0
    have hstep : discrete_check_step ((hour_of_sec t : Nat) : Int)
        ((min_of_sec t : Nat) : Int) e = ({ e with executed_already := false }, none) := by
      unfold discrete_check_step
      rw [if_neg (by simp [h0, hf]), if_pos (by simp [hr])]
    have hrest := discrete_sim_quiet_unarmed k (t + 1) { e with executed_already := false }
      (fun k2 hk2 => by
        have hx := hq (k2 + 1) (by omega)
        rwa [show t + (k2 + 1) = t + 1 + k2 by omega] at hx)
      hf rfl
    simp only [discrete_sim, hstep, hrest]

lemma discrete_sim_match_fire :
    ∀ (n t : Nat) (e : discrete_update_t),
      (∀ k, k < n →
        (discrete_time_matches ((hour_of_sec (t + k) : Nat) : Int) e.hour &&
          discrete_time_matches ((min_of_sec (t + k) : Nat) : Int) e.minute) = true) →
      e.force_next_update = false → e.executed_already = false → 0 < n →
      discrete_sim t n e = ([t], { e with executed_already := true }) := by
  intro n
  cases n with
  | zero => intro t e _ _ _ hpos; exact absurd hpos (by omega)
  | succ k =>
    intro t e hq hf hr _
    have h0 := hq 0 (Nat.succ_pos k)
    rw [Nat.add_zero] at h0
    have hrec : { e with force_next_update := false, executed_already := true } =
        { e with executed_already := true } := by
      cases e
      simp only at hf
      rw [hf]
    have hstep : discrete_check_step ((hour_of_sec t : Nat) : Int)
        ((min_of_sec t : Nat) : Int) e =
        ({ e with executed_already := true }, some e.execute.notifyBits) := by
      unfold discrete_check_step
      rw [if_pos (by simp [h0]), if_pos (by simp [hr]), hrec]
    have hrest := discrete_sim_match_armed k (t + 1) { e with executed_already := true }
      (fun k2 hk2 => by
        have hx := hq (k2 + 1) (by omega)
        rwa [show t + (k2 + 1) = t + 1 + k2 by omega] at hx)
      rfl
    simp only [discrete_sim, hstep, hrest]

lemma discrete_sim_quiet_fires :
    ∀ (n t : Nat) (e : discrete_update_t),
      (∀ k, k < n →
        (discrete_time_matches ((hour_of_sec (t + k) : Nat) : Int) e.hour &&
          discrete_time_matches ((min_of_sec (t + k) : Nat) : Int) e.minute) = false) →
      e.force_next_update = false →
      (discrete_sim t n e).1 = [] := by
  intro n t e hq hf
  rcases hr : e.executed_already with _ | _
  · rw [discrete_sim_quiet_unarmed n t e hq hf hr]
  · cases n with
    | zero => rfl
    | succ k =>
      rw [discrete_sim_quiet_from_armed (k + 1) t e hq hf hr (Nat.succ_pos k)]

lemma discrete_sim_split (a : Nat) :
    ∀ (t b : Nat) (e : discrete_update_t),
      discrete_sim t (a + b) e =
        ((discrete_sim t a e).1 ++ (discrete_sim (t + a) b (discrete_sim t a e).2).1,
          (discrete_sim (t + a) b (discrete_sim t a e).2).2) := by
  induction a with
  | zero =>
    intro t b e
    simp [discrete_sim]
  | succ a2 ih =>
    intro t b e
    have hsucc : a2 + 1 + b = (a2 + b) + 1 := by omega
    rw [hsucc]
    have ht : t + (a2 + 1) = t + 1 + a2 := by omega
    rcases hstep : discrete_check_step ((hour_of_sec t : Nat) : Int)
        ((min_of_sec t : Nat) : Int) e with ⟨e1, fired⟩
    rcases fired with _ | b2
    · have lhs1 : discrete_sim t ((a2 + b) + 1) e =
          ((discrete_sim (t + 1) (a2 + b) e1).1, (discrete_sim (t + 1) (a2 + b) e1).2) := by
        simp only [discrete_sim, hstep]
      have rhs1 : discrete_sim t (a2 + 1) e =
          ((discrete_sim (t + 1) a2 e1).1, (discrete_sim (t + 1) a2 e1).2) := by
        simp only [discrete_sim, hstep]
      rw [lhs1, rhs1, ih (t + 1) b e1, ht]
    · have lhs1 : discrete_sim t ((a2 + b) + 1) e =
          (t :: (discrete_sim (t + 1) (a2 + b) e1).1, (discrete_sim (t + 1) (a2 + b) e1).2) := by
        simp only [discrete_sim, hstep]
      have rhs1 : discrete_sim t (a2 + 1) e =
          (t :: (discrete_sim (t + 1) a2 e1).1, (discrete_sim (t + 1) a2 e1).2) := by
        simp only [discrete_sim, hstep]
      rw [lhs1, rhs1, ih (t + 1) b e1, ht]
      simp

/-- C9: a discrete entry with concrete (non-wildcard) hour and minute, driven
through the tick classifier's discrete check once per second with the clock
advancing across two simulated days, fires exactly once per day: precisely at
the first second of the matching minute of day one and again at the first
second of the matching minute of day two, and at no other tick in between. -/
theorem C9_discrete_once_per_day :
    ∀ (h m : Nat), h < 24 → m < 60 →
      ∀ e : discrete_update_t, e.hour = h → e.minute = m →
        e.force_next_update = false → e.executed_already = false →
        (discrete_sim 0 (2 * 86400) e).1 =
          [3600 * h + 60 * m, 86400 + (3600 * h + 60 * m)] ∧
        hour_of_sec (3600 * h + 60 * m) = h ∧ min_of_sec (3600 * h + 60 * m) = m := by
  intro h m hh hm e heh hem hef her
  obtain ⟨nm, eh, em, ran, ex, fr⟩ := e
  simp only at heh hem hef her
  have heh2 : h = eh := heh.symm
  have hem2 : m = em := hem.symm
  subst heh2 hem2 hef her
  refine ⟨?_, by unfold hour_of_sec; omega, by unfold min_of_sec; omega⟩
  have hmA : ∀ k, k < 3600 * h + 60 * m →
      (discrete_time_matches ((hour_of_sec (0 + k) : Nat) : Int) h &&
        discrete_time_matches ((min_of_sec (0 + k) : Nat) : Int) m) = false := by
    intro k hk
    rcases hb : (discrete_time_matches ((hour_of_sec (0 + k) : Nat) : Int) h &&
        discrete_time_matches ((min_of_sec (0 + k) : Nat) : Int) m) with _ | _
    · rfl
    · exact absurd ((disc_match_iff h m hh hm (0 + k)).mp hb) (by omega)
  have hmB : ∀ k, k < 60 →
      (discrete_time_matches ((hour_of_sec (3600 * h + 60 * m + k) : Nat) : Int) h &&
        discrete_time_matches ((min_of_sec (3600 * h + 60 * m + k) : Nat) : Int) m) = true := by
    intro k hk
    exact (disc_match_iff h m hh hm (3600 * h + 60 * m + k)).mpr (by omega)
  have hmC : ∀ k, k < 86340 →
      (discrete_time_matches ((hour_of_sec (3600 * h + 60 * m + 60 + k) : Nat) : Int) h &&
        discrete_time_matches ((min_of_sec (3600 * h + 60 * m + 60 + k) : Nat) : Int) m) =
        false := by
    intro k hk
    rcases hb : (discrete_time_matches ((hour_of_sec (3600 * h + 60 * m + 60 + k) : Nat) : Int) h &&
        discrete_time_matches ((min_of_sec (3600 * h + 60 * m + 60 + k) : Nat) : Int) m)
        with _ | _
    · rfl
    · exact absurd ((disc_match_iff h m hh hm (3600 * h + 60 * m + 60 + k)).mp hb) (by omega)
  have hmD : ∀ k, k < 60 →
      (discrete_time_matches ((hour_of_sec (86400 + (3600 * h + 60 * m) + k) : Nat) : Int) h &&
        discrete_time_matches ((min_of_sec (86400 + (3600 * h + 60 * m) + k) : Nat) : Int) m) =
        true := by
    intro k hk
    exact (disc_match_iff h m hh hm (86400 + (3600 * h + 60 * m) + k)).mpr (by omega)
  have hmE : ∀ k, k < 86340 - (3600 * h + 60 * m) →
      (discrete_time_matches
          ((hour_of_sec (86400 + (3600 * h + 60 * m) + 60 + k) : Nat) : Int) h &&
        discrete_time_matches
          ((min_of_sec (86400 + (3600 * h + 60 * m) + 60 + k) : Nat) : Int) m) = false := by
    intro k hk
    rcases hb : (discrete_time_matches
        ((hour_of_sec (86400 + (3600 * h + 60 * m) + 60 + k) : Nat) : Int) h &&
        discrete_time_matches
          ((min_of_sec (86400 + (3600 * h + 60 * m) + 60 + k) : Nat) : Int) m) with _ | _
    · rfl
    · exact absurd ((disc_match_iff h m hh hm (86400 + (3600 * h + 60 * m) + 60 + k)).mp hb)
        (by omega)
  have hA : discrete_sim 0 (3600 * h + 60 * m) ⟨nm, h, m, false, ex, false⟩ =
      ([], ⟨nm, h, m, false, ex, false⟩) :=
    discrete_sim_quiet_unarmed (3600 * h + 60 * m) 0 ⟨nm, h, m, false, ex, false⟩ hmA rfl rfl
  have hB : discrete_sim (3600 * h + 60 * m) 60 ⟨nm, h, m, false, ex, false⟩ =
      ([3600 * h + 60 * m], ⟨nm, h, m, true, ex, false⟩) :=
    discrete_sim_match_fire 60 (3600 * h + 60 * m) ⟨nm, h, m, false, ex, false⟩ hmB rfl rfl
      (by omega)
  have hC : discrete_sim (3600 * h + 60 * m + 60) 86340 ⟨nm, h, m, true, ex, false⟩ =
      ([], ⟨nm, h, m, false, ex, false⟩) :=
    discrete_sim_quiet_from_armed 86340 (3600 * h + 60 * m + 60) ⟨nm, h, m, true, ex, false⟩
      hmC rfl rfl (by omega)
  have hD : discrete_sim (86400 + (3600 * h + 60 * m)) 60 ⟨nm, h, m, false, ex, false⟩ =
      ([86400 + (3600 * h + 60 * m)], ⟨nm, h, m, true, ex, false⟩) :=
    discrete_sim_match_fire 60 (86400 + (3600 * h + 60 * m)) ⟨nm, h, m, false, ex, false⟩
      hmD rfl rfl (by omega)
  have hE : (discrete_sim (86400 + (3600 * h + 60 * m) + 60)
      (86340 - (3600 * h + 60 * m)) ⟨nm, h, m, true, ex, false⟩).1 = [] :=
    discrete_sim_quiet_fires (86340 - (3600 * h + 60 * m))
      (86400 + (3600 * h + 60 * m) + 60) ⟨nm, h, m, true, ex, false⟩ hmE rfl
  have key : (2 * 86400 : Nat) =
      (3600 * h + 60 * m) + (60 + (86340 + (60 + (86340 - (3600 * h + 60 * m))))) := by
    omega
  rw [key, discrete_sim_split, hA]
  dsimp only
  rw [Nat.zero_add, discrete_sim_split, hB]
  dsimp only
  rw [discrete_sim_split, hC]
  dsimp only
  rw [show 3600 * h + 60 * m + 60 + 86340 = 86400 + (3600 * h + 60 * m) from by omega]
  rw [discrete_sim_split, hD]
  dsimp only
  rw [hE]
  simp

theorem C9_witness :
    (discrete_sim 0 (2 * 86400) ⟨"tide", 3, 0, false, .tide_chart_update, false⟩).1 =
      [10800, 97200] := by
  have hx := C9_discrete_once_per_day 3 0 (by decide) (by decide)
    ⟨"tide", 3, 0, false, .tide_chart_update, false⟩ rfl rfl rfl rfl
  simpa using hx.1
